import Mathlib

/-!
Verification of `payu/scheduler/pbs.py`.

This file gives a shallow embedding of the PBS scheduler helpers of the
payu repository: the config-file loader `pbs_env_init`, the status fetcher
`get_qstat_info`, the mount-matching helper `find_mounts`, and the
submission-command builder `generate_command`.

Modelling conventions:
* Python strings are Lean `String`s; the character-level operations
  (`str.split`, `str.strip`, `str.replace`, `str.startswith`,
  `os.path.relpath` on normalised absolute POSIX paths) are implemented on
  `List Char` by structural recursion so that all definitions evaluate in
  the kernel.
* Python dicts are association lists in insertion order; assignment to an
  existing key replaces the first matching entry (`dinsert`).  Python sets
  are duplicate-free lists in insertion order (`setAdd`); no claim below
  depends on the unspecified iteration order of a hash set.
* Exceptions (`ValueError`, `TypeError`, `KeyError`, `AssertionError`) and
  `sys.exit` are the constructors of `PExit`; a fallible computation
  returns `Except PExit`.
* `os.environ` is an association list threaded explicitly; the filesystem
  is a function `String → Option (List String)` mapping a path to the
  lines of the file there (`none` = the open fails).
-/

set_option autoImplicit false

deriving instance DecidableEq for Except

namespace Payu

/-- Abnormal terminations of the Python code: `sys.exit(n)` and the
    uncaught exception kinds the module can raise. -/
inductive PExit where
  | exitCode (n : Int)
  | valueError
  | typeError
  | keyError
  | assertionError
  deriving DecidableEq, Repr

/-! ### Generic string / list helpers (Python semantics) -/

/-- Python `s.startswith(pat)` on the character lists: `list_starts pat s`
    is true when `pat` is an initial segment of `s`. -/
def list_starts : List Char → List Char → Bool
  | [], _ => true
  | _ :: _, [] => false
  | a :: as, b :: bs => a == b && list_starts as bs

/-- Python `pat in s` (substring containment) on character lists. -/
def containsList (pat : List Char) : List Char → Bool
  | [] => list_starts pat []
  | c :: rest => list_starts pat (c :: rest) || containsList pat rest

/-- Python `str.split(c)` for a single-character separator: every
    occurrence splits, empty fragments are kept. -/
def splitOnChar (c : Char) : List Char → List (List Char)
  | [] => [[]]
  | a :: rest =>
    if a = c then [] :: splitOnChar c rest
    else
      match splitOnChar c rest with
      | [] => [[a]]
      | h :: t => (a :: h) :: t

/-- Worker for `splitOnSep`: scans the string, splitting at each
    occurrence of the (non-empty) separator `s0 :: srest`.  The scan
    consumes at least one character per step, so running it with fuel
    `s.length + 1` never exhausts the fuel; the fuel only makes the
    recursion structural (and hence kernel-reducible). -/
def splitOnSepAux (s0 : Char) (srest : List Char) :
    Nat → List Char → List Char → List (List Char)
  | 0, acc, s => [acc.reverse ++ s]
  | _ + 1, acc, [] => [acc.reverse]
  | fuel + 1, acc, c :: rest =>
    if list_starts (s0 :: srest) (c :: rest) then
      acc.reverse :: splitOnSepAux s0 srest fuel [] (rest.drop srest.length)
    else
      splitOnSepAux s0 srest fuel (c :: acc) rest

/-- Python `str.split(sep)` for a multi-character separator.  The empty
    separator is a `ValueError` in Python and never occurs here (the one
    call site uses `header + ": "`); it is mapped to the identity. -/
def splitOnSep (sep : List Char) (s : List Char) : List (List Char) :=
  match sep with
  | [] => [s]
  | s0 :: srest => splitOnSepAux s0 srest (s.length + 1) [] s

/-- Python `s.split(c, 1)` followed by unpacking into two variables:
    `none` when the separator does not occur (the unpack raises). -/
def splitAtFirst (c : Char) : List Char → Option (List Char × List Char)
  | [] => none
  | a :: rest =>
    if a = c then some ([], rest)
    else
      match splitAtFirst c rest with
      | some (x, y) => some (a :: x, y)
      | none => none

/-- Python `s.split(c)[0]`: the prefix up to the first occurrence of `c`. -/
def takeUntilChar (c : Char) : List Char → List Char
  | [] => []
  | a :: rest => if a = c then [] else a :: takeUntilChar c rest

/-- Python `v.replace('\n\t', '')`: removes each (non-overlapping,
    left-to-right) occurrence of the newline+tab sequence. -/
def removeNlTab : List Char → List Char
  | '\n' :: '\t' :: rest => removeNlTab rest
  | c :: rest => c :: removeNlTab rest
  | [] => []

/-- The ASCII whitespace characters stripped by Python `str.strip()`. -/
def isPySpace (c : Char) : Bool :=
  c = ' ' || c = '\t' || c = '\n' || c = '\r' || c = '\x0b' || c = '\x0c'

/-- Python `s.strip()`. -/
def pyStrip (s : List Char) : List Char :=
  ((s.dropWhile isPySpace).reverse.dropWhile isPySpace).reverse

/-- Python `s.rstrip()`. -/
def pyRstrip (s : List Char) : List Char :=
  (s.reverse.dropWhile isPySpace).reverse

/-- Python `'sep'.join(parts)` on character lists. -/
def joinChar (c : Char) : List (List Char) → List Char
  | [] => []
  | [x] => x
  | x :: xs => x ++ c :: joinChar c xs

/-- Python `'sep'.join(parts)` on strings. -/
def joinSep (sep : String) : List String → String
  | [] => ""
  | [x] => x
  | x :: xs => x ++ sep ++ joinSep sep xs

/-- Python dict assignment `d[k] = v` on an insertion-ordered association
    list: replaces the first entry with key `k`, else appends. -/
def dinsert {α : Type} : List (String × α) → String → α → List (String × α)
  | [], k, v => [(k, v)]
  | (k1, v1) :: rest, k, v =>
    if k1 = k then (k, v) :: rest else (k1, v1) :: dinsert rest k v

/-- Python dict lookup `d.get(k)` / `d[k]` on an association list. -/
def alookup {α : Type} : List (String × α) → String → Option α
  | [], _ => none
  | (k1, v1) :: rest, k => if k1 = k then some v1 else alookup rest k

/-- Python `set.add` on an insertion-ordered duplicate-free list. -/
def setAdd (l : List String) (x : String) : List String :=
  if x ∈ l then l else l ++ [x]

/-- Python `set.update` (union into the left set). -/
def unionAdd (a b : List String) : List String :=
  b.foldl setAdd a

/-! ### `find_mounts` -/

/-- The components of a POSIX path: split on `/`, dropping empty
    fragments.  This is the component list `posixpath.relpath` works with
    for normalised absolute paths (no `.` or `..` components), the only
    paths this repository feeds to it. -/
def splitComponents (p : String) : List (List Char) :=
  (splitOnChar '/' p.data).filter (fun x => x ≠ [])

/-- Length of the common prefix of two component lists, as computed by
    `posixpath.relpath`. -/
def commonPrefixLen : List (List Char) → List (List Char) → Nat
  | a :: as, b :: bs => if a = b then commonPrefixLen as bs + 1 else 0
  | _, _ => 0

/-- Python `os.path.relpath(path, start)` for normalised absolute POSIX
    paths: strip the common component prefix, ascend with `..` for each
    remaining component of `start`, then descend into the remaining
    components of `path`; the empty relative path is `"."`. -/
def relpath (path start : String) : String :=
  let pl := splitComponents path
  let sl := splitComponents start
  let i := commonPrefixLen sl pl
  let rel := List.replicate (sl.length - i) ('.' :: '.' :: []) ++ pl.drop i
  if rel = [] then "." else String.mk (joinChar '/' rel)

/-- Python `re.sub(os.path.sep, '', m)`: delete every `/` from `m`. -/
def strip_sep (m : String) : String :=
  String.mk (m.data.filter (fun c => c ≠ '/'))

/-- Python `os.path.relpath(p, m).split(os.path.sep)[0]`: the first
    path component of `p` relative to the mount `m`. -/
def proj_code (p m : String) : String :=
  String.mk ((splitOnChar '/' (relpath p m).data).headD [])

/-- Embedding of `find_mounts(paths, mounts)`: for each path, the first
    mount (in iteration order of the mount set, modelled as list order)
    that is a string prefix of the path contributes the token
    `<mount-without-separators>/<first-component-after-mount>`.  The
    `isinstance` coercions of the source (wrapping a lone string into a
    list, freezing an iterable into a set) are subsumed by the types. -/
def find_mounts (paths mounts : List String) : List String :=
  paths.foldl
    (fun storages p =>
      match mounts.find? (fun m => list_starts m.data p.data) with
      | some m => setAdd storages (strip_sep m ++ "/" ++ proj_code p m)
      | none => storages)
    []

/-! ### `pbs_env_init` -/

/-- The fixed, platform-dependent PBS configuration path of
    `pbs_env_init`. -/
def pbs_conf_fpath (win32 : Bool) : String :=
  if win32 then "C:\\Program Files\\PBS Pro\\pbs.conf" else "/etc/pbs.conf"

/-- Python `key, value = line.split('=')` on one config line: succeeds
    exactly when the line contains a single `=`; otherwise the unpack
    raises `ValueError`, which the source swallows with `pass`. -/
def conf_line_kv (line : String) : Option (String × String) :=
  match splitOnChar '=' line.data with
  | [k, v] => some (String.mk k, String.mk v)
  | _ => none

/-- Embedding of `pbs_env_init()`.  The process environment is threaded
    explicitly; `fs` maps a path to the lines of the file there (`none`
    means `open` raises `IOError`, upon which the source prints a message
    and calls `sys.exit(1)`). -/
def pbs_env_init (win32 : Bool) (fs : String → Option (List String))
    (env : List (String × String)) : Except PExit (List (String × String)) :=
  let path := pbs_conf_fpath win32
  let env := dinsert env "PBS_CONF_FILE" path
  match fs path with
  | none => Except.error (PExit.exitCode 1)
  | some lines =>
    Except.ok (lines.foldl
      (fun e line =>
        match conf_line_kv line with
        | some (key, value) => dinsert e key (String.mk (pyRstrip value.data))
        | none => e)
      env)

/-! ### `get_qstat_info` -/

/-- Python truthiness of an optional list argument (`None` and `[]` are
    falsy). -/
def truthyL (o : Option (List String)) : Bool :=
  match o with
  | none => false
  | some l => l ≠ []

/-- The per-block filter of `get_qstat_info`:
    `any('project = {}'.format(p) in e for p in projects) or
     any('Job_Owner = {}'.format(u) in e for u in users)`.
    Iterating a `None` filter raises `TypeError`; by `or` short-circuit the
    `users` generator is only built when no project matched. -/
def entry_filter (projects users : Option (List String)) (e : List Char) :
    Except PExit Bool :=
  if truthyL projects || truthyL users then
    match projects with
    | none => Except.error PExit.typeError
    | some pl =>
      if pl.any (fun p => containsList ("project = " ++ p).data e) then
        Except.ok true
      else
        match users with
        | none => Except.error PExit.typeError
        | some ul =>
          Except.ok (ul.any (fun u => containsList ("Job_Owner = " ++ u).data e))
  else Except.ok true

/-- Applies `entry_filter` across the lazily filtered entry stream; the
    first raised exception aborts the fetch. -/
def filter_entries (projects users : Option (List String)) :
    List (List Char) → Except PExit (List (List Char))
  | [] => Except.ok []
  | e :: rest =>
    match entry_filter projects users e with
    | Except.error err => Except.error err
    | Except.ok b =>
      match filter_entries projects users rest with
      | Except.error err => Except.error err
      | Except.ok r => Except.ok (if b then e :: r else r)

/-- Inner dict build of `get_qstat_info`:
    `dict((kk.strip(), vv.strip()) for kk, vv in
          (att.split('=', 1) for att in v if att))`.
    Empty lines are dropped by the `if att` guard; a non-empty line
    without `=` makes the two-variable unpack raise `ValueError`. -/
def build_attribs : List (List Char) → List (String × String) →
    Except PExit (List (String × String))
  | [], acc => Except.ok acc
  | att :: rest, acc =>
    if att = [] then build_attribs rest acc
    else
      match splitAtFirst '=' att with
      | some (kk, vv) =>
        build_attribs rest
          (dinsert acc (String.mk (pyStrip kk)) (String.mk (pyStrip vv)))
      | none => Except.error PExit.valueError

/-- Parses one retained block: `e.split('\n', 1)` into key line and body
    (raising `ValueError` when the block has no newline), key truncated at
    the first `.`, body continuation sequences `'\n\t'` removed, then the
    attribute dict built line by line. -/
def parse_entry (e : List Char) : Except PExit (String × List (String × String)) :=
  match splitAtFirst '\n' e with
  | none => Except.error PExit.valueError
  | some (k, v) =>
    let key := takeUntilChar '.' k
    let lines := splitOnChar '\n' (removeNlTab v)
    match build_attribs lines [] with
    | Except.error err => Except.error err
    | Except.ok atts => Except.ok (String.mk key, atts)

/-- Parses every retained block, first failure aborting the fetch. -/
def parse_entries : List (List Char) → Except PExit (List (String × List (String × String)))
  | [] => Except.ok []
  | e :: rest =>
    match parse_entry e with
    | Except.error err => Except.error err
    | Except.ok kv =>
      match parse_entries rest with
      | Except.error err => Except.error err
      | Except.ok r => Except.ok (kv :: r)

/-- One attempt of the body of `get_qstat_info` applied to the captured
    query output: split into blocks on `'<header>: '`, drop empty
    fragments, filter by projects/users, parse each block, and build the
    status dict keyed by block key. -/
def get_qstat_info_core (output header : String)
    (projects users : Option (List String)) :
    Except PExit (List (String × List (String × String))) :=
  let entries := (splitOnSep (header ++ ": ").data output.data).filter (fun e => e ≠ [])
  match filter_entries projects users entries with
  | Except.error err => Except.error err
  | Except.ok kept =>
    match parse_entries kept with
    | Except.error err => Except.error err
    | Except.ok kvs =>
      Except.ok (kvs.foldl (fun acc kv => dinsert acc kv.1 kv.2) [])

/-- Embedding of `get_qstat_info` as observed through its `tenacity`
    wrapper `@retry(stop=stop_after_delay(10), retry_error_callback=lambda a: None)`:
    any exception is retried, and since the embedded computation is
    deterministic every retry of a failing attempt fails identically, so
    after the 10-second budget the callback returns `None`.  The external
    part of an attempt (the `PBS_EXEC` lookup, `subprocess.check_output`
    of `qstat`, and decoding) is abstracted as `query`, the captured
    output text or a failure. -/
def get_qstat_info (query : Except PExit String) (header : String)
    (projects users : Option (List String)) :
    Option (List (String × List (String × String))) :=
  match query with
  | Except.error _ => none
  | Except.ok output =>
    match get_qstat_info_core output header projects users with
    | Except.error _ => none
    | Except.ok st => some st

/-! ### `generate_command` -/

/-- The job configuration (`pbs_config`) fields `generate_command` reads.
    Absent YAML keys are `none`; `storage` is the configured mapping of
    mount point to associated project codes, as an insertion-ordered
    association list (a Python dict). -/
structure PBSConfig where
  queue : Option String
  project : Option String
  walltime : Option String
  ncpus : Option String
  mem : Option String
  jobfs : Option String
  jobname : Option String
  priority : Option String
  join : Option String
  storage : List (String × List String)
  qsub_flags : Option String
  deriving DecidableEq, Repr

/-- Python truthiness of an optional string (`None` and `''` are falsy),
    as tested by `if res_val:`, `if pbs_jobname:`, etc. -/
def truthyS (o : Option String) : Bool :=
  match o with
  | none => false
  | some s => s ≠ ""

/-- Python `mount, projects = key` for a dict key `key`: iterating a
    string yields its characters, so the unpack succeeds exactly when the
    key has two characters, and otherwise raises `ValueError`. -/
def unpack2 (key : String) : Except PExit (String × String) :=
  match key.data with
  | [a, b] => Except.ok (String.mk [a], String.mk [b])
  | _ => Except.error PExit.valueError

/-- The storage loop of `generate_command`:
    `for mount, projects in storage_config:` iterates the *keys* of the
    storage dict (there is no `.items()`), unpacking each key string into
    `(mount, projects)`; `for project in projects:` then iterates the
    characters of the 1-character string `projects`.  Returns the final
    `(mounts, storages)` sets. -/
def storage_tokens : List (String × List String) → List String → List String →
    Except PExit (List String × List String)
  | [], mounts, storages => Except.ok (mounts, storages)
  | (key, _) :: rest, mounts, storages =>
    match unpack2 key with
    | Except.error e => Except.error e
    | Except.ok (mount, projects) =>
      let mounts := setAdd mounts mount
      let storages := projects.data.foldl
        (fun st c => setAdd st (mount ++ "/" ++ String.mk [c])) storages
      storage_tokens rest mounts storages

/-- Python `s[:15]`. -/
def pyTake (n : Nat) (s : String) : String :=
  String.mk (s.data.take n)

/-- The resource section of `generate_command`: for each of `walltime`,
    `ncpus`, `mem`, `jobfs` in that order, a per-key `res_flags` list gets
    `key=val` when the configured value is truthy, and a `-l` flag is
    appended when `res_flags` is non-empty. -/
def res_flag (key : String) (val : Option String) : List String :=
  let res_flags :=
    match val with
    | some v => if v ≠ "" then [key ++ "=" ++ v] else []
    | none => []
  if res_flags ≠ [] then ["-l " ++ joinSep "," res_flags] else []

/-- All four resource flags in the fixed source order. -/
def resource_flags (cfg : PBSConfig) : List String :=
  res_flag "walltime" cfg.walltime ++ res_flag "ncpus" cfg.ncpus ++
    res_flag "mem" cfg.mem ++ res_flag "jobfs" cfg.jobfs

/-- The flag-building part of `generate_command`, from `pbs_flags = []`
    through the `qsub_flags` append.  `envP` is `os.environ` at key
    `PROJECT` (looked up eagerly as the default of
    `pbs_config.get('project', os.environ['PROJECT'])`, so its absence
    raises `KeyError` even when the config sets a project); `cwd_base` is
    `os.path.basename(os.getcwd())`.  Returns the flag list together with
    the final `storages` and `mounts` sets, which the caller feeds to
    `find_mounts`. -/
def generate_pbs_flags (cfg : PBSConfig) (envP : Option String)
    (cwd_base : String) (pbs_vars : List (String × String)) :
    Except PExit (List String × List String × List String) :=
  let pbs_queue := cfg.queue.getD "normal"
  let flags := ["-q " ++ pbs_queue]
  match envP with
  | none => Except.error PExit.keyError
  | some projDefault =>
    let pbs_project := cfg.project.getD projDefault
    let flags := flags ++ ["-P " ++ pbs_project]
    let flags := flags ++ resource_flags cfg
    let pbs_jobname := cfg.jobname.getD cwd_base
    let flags := flags ++
      (if pbs_jobname ≠ "" then ["-N " ++ pyTake 15 pbs_jobname] else [])
    let flags := flags ++
      (if truthyS cfg.priority then ["-p " ++ cfg.priority.getD ""] else [])
    let flags := flags ++ ["-l wd"]
    let pbs_join := cfg.join.getD "n"
    if pbs_join ∉ (["oe", "eo", "n"] : List String) then
      Except.error (PExit.exitCode (-1))
    else
      let flags := flags ++ ["-j " ++ pbs_join]
      let pbs_vstring :=
        joinSep "," (pbs_vars.map (fun kv => kv.1 ++ "=" ++ kv.2))
      let flags := flags ++ ["-v " ++ pbs_vstring]
      match storage_tokens cfg.storage ["/scratch", "/g/data"] [] with
      | Except.error e => Except.error e
      | Except.ok (mounts, storages) =>
        let pbs_flags_extend := joinSep "+" storages
        let flags := flags ++
          (if pbs_flags_extend ≠ "" then ["-l storage=" ++ pbs_flags_extend] else [])
        let flags := flags ++
          (if truthyS cfg.qsub_flags then [cfg.qsub_flags.getD ""] else [])
        Except.ok (flags, storages, mounts)

/-- Python `os.path.isabs` for POSIX paths. -/
def isabs (p : String) : Bool :=
  list_starts ['/'] p.data

/-- Python `os.path.join(a, b)` for POSIX paths. -/
def path_join (a b : String) : String :=
  if isabs b then b
  else if a = "" then b
  else if a.data.getLast? = some '/' then a ++ b
  else a ++ "/" ++ b

/-- Embedding of `generate_command(pbs_script, pbs_config, pbs_vars)`.
    External state appears as parameters: `env`/`fs`/`win32` feed
    `pbs_env_init`, `executable` is `sys.executable`, `argv0_dir` is
    `os.path.dirname(sys.argv[0])`, `cwd_base` is the basename of the
    working directory, and `isfile` is the `os.path.isfile` oracle behind
    the `assert` (a false assert raises `AssertionError`).  The
    `envmod.setup()` / `envmod.module('load', 'pbs')` calls mutate the
    module subsystem only and contribute nothing to the returned string.
    The `storages.update(find_mounts(...))` line runs after `pbs_flags`
    is complete and its result is never read again, which the `_storages2`
    binding mirrors. -/
def generate_command (pbs_script : String) (cfg : PBSConfig)
    (pbs_vars : List (String × String)) (env : List (String × String))
    (fs : String → Option (List String)) (win32 : Bool)
    (executable : String) (argv0_dir : String) (cwd_base : String)
    (isfile : String → Bool) : Except PExit String :=
  match pbs_env_init win32 fs env with
  | Except.error e => Except.error e
  | Except.ok env2 =>
    match generate_pbs_flags cfg (alookup env2 "PROJECT") cwd_base pbs_vars with
    | Except.error e => Except.error e
    | Except.ok (pbs_flags, storages, mounts) =>
      match
        (if isabs pbs_script then Except.ok pbs_script
         else
           let payu_bin := (alookup pbs_vars "PAYU_PATH").getD argv0_dir
           let s := path_join payu_bin pbs_script
           if isfile s then Except.ok s else Except.error PExit.assertionError :
          Except PExit String) with
      | Except.error e => Except.error e
      | Except.ok script2 =>
        let _storages2 := unionAdd storages (find_mounts [executable, script2] mounts)
        Except.ok ("qsub " ++ joinSep " " pbs_flags ++ " -- " ++ executable
          ++ " " ++ script2)

/-- The command `generate_command` would emit if the mount auto-discovery
    pass did not exist: identical to `generate_command` except that the
    `storages.update(find_mounts([sys.executable, pbs_script], mounts))`
    line is absent.  This is the spec-side reference point for the claim
    that the discovery pass cannot affect the emitted command. -/
def generate_command_no_discovery (pbs_script : String) (cfg : PBSConfig)
    (pbs_vars : List (String × String)) (env : List (String × String))
    (fs : String → Option (List String)) (win32 : Bool)
    (executable : String) (argv0_dir : String) (cwd_base : String)
    (isfile : String → Bool) : Except PExit String :=
  match pbs_env_init win32 fs env with
  | Except.error e => Except.error e
  | Except.ok env2 =>
    match generate_pbs_flags cfg (alookup env2 "PROJECT") cwd_base pbs_vars with
    | Except.error e => Except.error e
    | Except.ok (pbs_flags, _, _) =>
      match
        (if isabs pbs_script then Except.ok pbs_script
         else
           let payu_bin := (alookup pbs_vars "PAYU_PATH").getD argv0_dir
           let s := path_join payu_bin pbs_script
           if isfile s then Except.ok s else Except.error PExit.assertionError :
          Except PExit String) with
      | Except.error e => Except.error e
      | Except.ok script2 =>
        Except.ok ("qsub " ++ joinSep " " pbs_flags ++ " -- " ++ executable
          ++ " " ++ script2)

end Payu



namespace Payu

/-! ### Supporting lemmas -/

/-- A list is a starting segment of itself followed by anything. -/
theorem list_starts_append (l z : List Char) : list_starts l (l ++ z) = true := by
  induction l with
  | nil => rfl
  | cons a as ih => simp [list_starts, ih]

/-- A list is a starting segment of itself. -/
theorem list_starts_refl (l : List Char) : list_starts l l = true := by
  simpa using list_starts_append l []

/-- Overwriting the same key twice is the same as overwriting it once. -/
theorem dinsert_dinsert {α : Type} (l : List (String × α)) (k : String) (v w : α) :
    dinsert (dinsert l k v) k w = dinsert l k w := by
  induction l with
  | nil => simp [dinsert]
  | cons h t ih =>
    obtain ⟨k1, v1⟩ := h
    by_cases hk : k1 = k
    · subst hk; simp [dinsert]
    · simp [dinsert, hk, ih]

/-- The common prefix of a list with itself is the whole list. -/
theorem commonPrefixLen_self (l : List (List Char)) : commonPrefixLen l l = l.length := by
  induction l with
  | nil => rfl
  | cons a as ih => simp [commonPrefixLen, ih]

/-- The common prefix of a list with an extension of itself is the whole
    list. -/
theorem commonPrefixLen_append (l t : List (List Char)) :
    commonPrefixLen l (l ++ t) = l.length := by
  induction l with
  | nil => rfl
  | cons a as ih => simp [commonPrefixLen, ih]

/-- Python `os.path.relpath(p, p) = '.'`. -/
theorem relpath_self (p : String) : relpath p p = "." := by
  simp [relpath, commonPrefixLen_self, List.drop_length]

/-- Splitting never returns an empty fragment list. -/
theorem splitOnChar_ne_nil (c : Char) (l : List Char) : splitOnChar c l ≠ [] := by
  induction l with
  | nil => simp [splitOnChar]
  | cons a rest ih =>
    by_cases ha : a = c
    · simp [splitOnChar, ha]
    · simp only [splitOnChar, if_neg ha]
      cases h : splitOnChar c rest with
      | nil => simp
      | cons x xs => simp

/-- Splitting distributes over concatenation at a separator occurrence. -/
theorem splitOnChar_append_sep (c : Char) (x y : List Char) :
    splitOnChar c (x ++ c :: y) = splitOnChar c x ++ splitOnChar c y := by
  induction x with
  | nil => simp [splitOnChar]
  | cons a rest ih =>
    by_cases ha : a = c
    · simp [splitOnChar, ha, ih]
    · simp only [List.cons_append, splitOnChar, if_neg ha]
      cases h : splitOnChar c rest with
      | nil => exact absurd h (splitOnChar_ne_nil c rest)
      | cons r rs => simp [ih, h]

/-- Splitting a fragment free of the separator yields that fragment. -/
theorem splitOnChar_no_sep (c : Char) (x : List Char) (h : ∀ a ∈ x, a ≠ c) :
    splitOnChar c x = [x] := by
  induction x with
  | nil => rfl
  | cons a rest ih =>
    have ha : a ≠ c := h a (List.mem_cons_self a rest)
    have hr := ih (fun b hb => h b (List.mem_cons_of_mem a hb))
    simp [splitOnChar, ha, hr]

/-- Path components distribute over concatenation through a separator. -/
theorem splitComponents_concat (a b : String) :
    splitComponents (a ++ "/" ++ b) = splitComponents a ++ splitComponents b := by
  have hd : (a ++ "/" ++ b).data = a.data ++ '/' :: b.data := by
    simp [String.data_append]
  simp [splitComponents, hd, splitOnChar_append_sep]

/-- Joining `/` then `.` onto a string is appending `"/."`. -/
theorem append_slash_dot (s : String) : s ++ "/" ++ "." = s ++ "/." := by
  apply String.ext
  simp [String.data_append]

/-- For a path lying strictly under a mount, `relpath` starts with the
    component that follows the mount. -/
theorem relpath_under (m proj rest : String)
    (hs : ∀ a ∈ proj.data, a ≠ '/') (hne : proj.data ≠ []) :
    relpath (m ++ "/" ++ proj ++ "/" ++ rest) m
      = String.mk (joinChar '/' (proj.data :: splitComponents rest)) := by
  have hone : splitComponents proj = [proj.data] := by
    simp [splitComponents, splitOnChar_no_sep '/' proj.data hs, hne]
  have h1 : splitComponents (m ++ "/" ++ proj ++ "/" ++ rest)
      = splitComponents m ++ (proj.data :: splitComponents rest) := by
    rw [splitComponents_concat (m ++ "/" ++ proj) rest,
      splitComponents_concat m proj, hone]
    simp
  simp [relpath, h1, commonPrefixLen_append, List.drop_left]

/-- For a path lying strictly under a mount, the derived project code is
    the component that follows the mount. -/
theorem proj_code_under (m proj rest : String)
    (hs : ∀ a ∈ proj.data, a ≠ '/') (hne : proj.data ≠ []) :
    proj_code (m ++ "/" ++ proj ++ "/" ++ rest) m = proj := by
  rw [proj_code, relpath_under m proj rest hs hne]
  cases hcs : splitComponents rest with
  | nil => simp [joinChar, splitOnChar_no_sep '/' proj.data hs]
  | cons c cs => simp [joinChar, splitOnChar_append_sep, splitOnChar_no_sep '/' proj.data hs]

/-- When every mount that textually matches the path is the path itself,
    the first-match search returns the path. -/
theorem find_first_exact (p : String) (mounts : List String)
    (hmem : p ∈ mounts)
    (hfirst : ∀ m ∈ mounts, list_starts m.data p.data = true → m = p) :
    mounts.find? (fun m => list_starts m.data p.data) = some p := by
  induction mounts with
  | nil => cases hmem
  | cons m t ih =>
    cases hx : list_starts m.data p.data with
    | true =>
      have hm := hfirst m (List.mem_cons_self m t) hx
      subst hm
      simp [List.find?, hx]
    | false =>
      have hp : p ∈ t := by
        rcases List.mem_cons.mp hmem with h | h
        · subst h
          rw [list_starts_refl] at hx
          cases hx
        · exact h
      have hrest : ∀ m2 ∈ t, list_starts m2.data p.data = true → m2 = p :=
        fun m2 h2 hs2 => hfirst m2 (List.mem_cons_of_mem m h2) hs2
      simpa [List.find?, hx] using ih hp hrest

/-! ### Claim theorems -/

/-- Claim C4: parsing the status text
    `"Job Id: 123.r-man2\n    project = ab12\n    Job_Owner = alice\n"`
    with header label `"Job Id"` returns the mapping
    `{"123": {"project": "ab12", "Job_Owner": "alice"}}`: the block key is
    the first line truncated at the first `.`, and each attribute line is
    split once on the first `=` with both sides trimmed. -/
theorem qstat_parse_example :
    get_qstat_info
      (Except.ok "Job Id: 123.r-man2\n    project = ab12\n    Job_Owner = alice\n")
      "Job Id" none none
      = some [("123", [("project", "ab12"), ("Job_Owner", "alice")])] := by
  decide

/-- Claim C7: when every attempt of the external scheduler query fails
    for the whole retry budget, `get_qstat_info` returns `None` rather
    than raising: the `tenacity` wrapper's `retry_error_callback` maps the
    exhausted retries to `None` for any query flags, header and filters. -/
theorem qstat_query_failure_returns_none (e : PExit) (header : String)
    (projects users : Option (List String)) :
    get_qstat_info (Except.error e) header projects users = none := rfl

/-- Claim C2 (failing evaluation): with `projects=["xy99"]` and no users
    filter, a status output containing a matching block and a
    non-matching block does not yield the filtered mapping the claim
    describes; the membership test over the `None` users list raises
    `TypeError` on the first non-matching block, the retries exhaust, and
    the fetch returns `None`. -/
theorem qstat_project_filter_typeerror :
    get_qstat_info
      (Except.ok "Job Id: 1.x\n project = xy99\nJob Id: 2.y\n project = zz00\n")
      "Job Id" (some ["xy99"]) none = none := by
  decide

/-- Claim C3 (counterexample): a retained block whose body contains the
    non-empty line `"stray"` with no `=` character does not have that line
    skipped with the well-formed `project` line still returned — instead
    the unpack of `att.split('=', 1)` raises `ValueError` and the whole
    fetch returns the absent result `None`. -/
theorem qstat_stray_line_absent :
    get_qstat_info (Except.ok "Job Id: 1.x\nstray\n project = ab12\n")
      "Job Id" none none = none := by
  decide

/-- Claim C3 (amended): when building a block's attribute mapping, every
    EMPTY body line is skipped wherever it occurs and the remaining
    well-formed `key = value` lines are still returned; concretely, a
    block with a blank body line still parses to its well-formed
    attributes. -/
theorem qstat_blank_lines_skipped :
    (∀ (pre post : List (List Char)) (acc : List (String × String)),
        build_attribs (pre ++ [] :: post) acc = build_attribs (pre ++ post) acc)
    ∧ get_qstat_info (Except.ok "Job Id: 1.x\n\n project = ab12\n")
        "Job Id" none none
        = some [("1", [("project", "ab12")])] := by
  constructor
  · intro pre post acc
    induction pre generalizing acc with
    | nil => simp [build_attribs]
    | cons a pre ih =>
      by_cases ha : a = []
      · simp [build_attribs, ha, ih]
      · simp only [List.cons_append, build_attribs, if_neg ha]
        cases splitAtFirst '=' a with
        | none => rfl
        | some kv => exact ih _
  · decide

/-- Claim C8: `find_mounts(["/scratch/ab12/file"], {"/scratch"})` returns
    exactly `{"scratch/ab12"}`; in general, for a path lying under a
    mount, the path component immediately after the mount is the project
    code and the emitted token is the mount with separators stripped,
    `/`, then the project code. -/
theorem find_mounts_scratch_token :
    find_mounts ["/scratch/ab12/file"] ["/scratch"] = ["scratch/ab12"]
    ∧ ∀ (m proj rest : String), (∀ a ∈ proj.data, a ≠ '/') → proj.data ≠ [] →
        find_mounts [m ++ "/" ++ proj ++ "/" ++ rest] [m]
          = [strip_sep m ++ "/" ++ proj] := by
  constructor
  · decide
  · intro m proj rest hs hne
    have hdata : (m ++ "/" ++ proj ++ "/" ++ rest).data
        = m.data ++ ('/' :: (proj.data ++ '/' :: rest.data)) := by
      simp [String.data_append]
    have hstart : list_starts m.data (m.data ++ ('/' :: (proj.data ++ '/' :: rest.data)))
        = true := list_starts_append _ _
    simp [find_mounts, List.find?, hdata, hstart,
      proj_code_under m proj rest hs hne, setAdd]

/-- Witness for C8: the general token law at the concrete input
    `find_mounts(["/g/data/xy11/out"], {"/g/data"})`. -/
theorem find_mounts_scratch_token_w :
    (∀ a ∈ ("xy11" : String).data, a ≠ '/')
    ∧ find_mounts ["/g/data" ++ "/" ++ "xy11" ++ "/" ++ "out"] ["/g/data"]
        = [strip_sep "/g/data" ++ "/" ++ "xy11"] :=
  ⟨by decide, find_mounts_scratch_token.2 "/g/data" "xy11" "out" (by decide) (by decide)⟩

/-- Claim C10: for a path `p` equal to a mount in the mount set (and
    matched by no other mount), the derived project code is the literal
    `"."`: the emitted token is the mount with separators stripped
    followed by `"/."`, not the empty set and not a token without a
    project segment. -/
theorem find_mounts_exact_mount_dot (p : String) (mounts : List String)
    (hmem : p ∈ mounts)
    (hfirst : ∀ m ∈ mounts, list_starts m.data p.data = true → m = p) :
    find_mounts [p] mounts = [strip_sep p ++ "/."] := by
  have hf := find_first_exact p mounts hmem hfirst
  have hpc : proj_code p p = "." := by
    rw [proj_code, relpath_self]
    decide
  simp [find_mounts, hf, hpc, setAdd, append_slash_dot]

/-- Witness for C10: the mount `"/g/data"` fed to `find_mounts` as its own
    path yields the token `"gdata/."`. -/
theorem find_mounts_exact_mount_dot_w :
    ("/g/data" ∈ (["/g/data"] : List String))
    ∧ find_mounts ["/g/data"] ["/g/data"] = [strip_sep "/g/data" ++ "/."] :=
  ⟨by decide,
    find_mounts_exact_mount_dot "/g/data" ["/g/data"] (by decide) (by decide)⟩

/-- Claim C9: `pbs_env_init` unconditionally overwrites the
    `PBS_CONF_FILE` environment variable with the fixed platform
    default before opening the file: a prior caller-supplied value `v`
    changes nothing, and only the filesystem's content at the fixed
    default path (`/etc/pbs.conf`, or the `PBS Pro` path on Windows) is
    ever consulted. -/
theorem pbs_env_init_conf_file_fixed (win32 : Bool)
    (env : List (String × String)) (v : String)
    (fs fs2 : String → Option (List String))
    (hfs : fs (pbs_conf_fpath win32) = fs2 (pbs_conf_fpath win32)) :
    pbs_env_init win32 fs (dinsert env "PBS_CONF_FILE" v)
      = pbs_env_init win32 fs2 env := by
  simp only [pbs_env_init]
  rw [dinsert_dinsert, hfs]

/-- Witness for C9: a caller-supplied `PBS_CONF_FILE` value pointing at a
    path where the two filesystems differ does not change the result,
    because only `/etc/pbs.conf` is read. -/
theorem pbs_env_init_conf_file_fixed_w :
    (fun p : String => if p = "/etc/pbs.conf" then some ([] : List String) else none)
        (pbs_conf_fpath false)
      = (fun _ : String => some ([] : List String)) (pbs_conf_fpath false)
    ∧ pbs_env_init false
        (fun p => if p = "/etc/pbs.conf" then some [] else none)
        (dinsert [] "PBS_CONF_FILE" "/caller/pbs.conf")
      = pbs_env_init false (fun _ => some []) [] :=
  ⟨by decide,
    pbs_env_init_conf_file_fixed false [] "/caller/pbs.conf"
      (fun p => if p = "/etc/pbs.conf" then some [] else none)
      (fun _ => some []) (by decide)⟩

/-- The storage configuration `{"/g/data": ["ab12"]}` of claim C1,
    together with an otherwise routine job configuration. -/
def cfg_storage_example : PBSConfig :=
  { queue := none, project := some "ab12", walltime := none, ncpus := none,
    mem := none, jobfs := none, jobname := none, priority := none,
    join := none, storage := [("/g/data", ["ab12"])], qsub_flags := none }

/-- Claim C1 (failing evaluation): with the storage config
    `{"/g/data": ["ab12"]}` the command builder does not emit a command
    containing the token `g/data/ab12`; iterating the storage dict
    without `.items()` unpacks the 7-character key `"/g/data"` into
    `(mount, projects)`, which raises `ValueError`, so no command string
    is produced at all. -/
theorem generate_command_storage_unpack_failure :
    generate_command "/payu/run.sh" cfg_storage_example [] [("PROJECT", "ab12")]
      (fun _ => some []) false "/usr/bin/python3" "/usr/bin" "expt" (fun _ => true)
      = Except.error PExit.valueError := by
  decide

/-- Claim C5: the mount auto-discovery pass over the interpreter and
    script paths never affects the emitted command: for every input,
    `generate_command` returns exactly what it would return if the
    `storages.update(find_mounts([sys.executable, pbs_script], mounts))`
    line did not exist, because that update happens after the
    `-l storage=` flag is already fixed and its result is never read. -/
theorem generate_command_discovery_frame (pbs_script : String) (cfg : PBSConfig)
    (pbs_vars env : List (String × String)) (fs : String → Option (List String))
    (win32 : Bool) (executable argv0_dir cwd_base : String)
    (isfile : String → Bool) :
    generate_command pbs_script cfg pbs_vars env fs win32 executable argv0_dir
        cwd_base isfile
      = generate_command_no_discovery pbs_script cfg pbs_vars env fs win32
          executable argv0_dir cwd_base isfile := rfl

/-- Claim C6: if the configured stream-join mode (default `"n"`) is not
    one of `oe`, `eo`, `n`, `generate_command` terminates through
    `sys.exit(-1)` (a non-zero process exit status) and returns no
    command string; for a valid mode, the flag list built by the command
    contains `-j <mode>`.  The hypotheses say only that `pbs_env_init`
    succeeded and that the (eagerly evaluated) `os.environ['PROJECT']`
    lookup finds a value, i.e. that execution reaches the join check. -/
theorem generate_command_join_validation (pbs_script : String) (cfg : PBSConfig)
    (pbs_vars env env2 : List (String × String))
    (fs : String → Option (List String)) (win32 : Bool)
    (executable argv0_dir cwd_base : String) (isfile : String → Bool) (pr : String)
    (hinit : pbs_env_init win32 fs env = Except.ok env2)
    (hproj : alookup env2 "PROJECT" = some pr) :
    (cfg.join.getD "n" ∉ (["oe", "eo", "n"] : List String) →
      generate_command pbs_script cfg pbs_vars env fs win32 executable argv0_dir
          cwd_base isfile
        = Except.error (PExit.exitCode (-1)))
    ∧ (∀ fl st mts,
        generate_pbs_flags cfg (alookup env2 "PROJECT") cwd_base pbs_vars
          = Except.ok (fl, st, mts) → ("-j " ++ cfg.join.getD "n") ∈ fl) := by
  constructor
  · intro hj
    have hf : generate_pbs_flags cfg (alookup env2 "PROJECT") cwd_base pbs_vars
        = Except.error (PExit.exitCode (-1)) := by
      rw [hproj]
      simp only [generate_pbs_flags]
      rw [if_pos hj]
    simp [generate_command, hinit, hf]
  · intro fl st mts h
    rw [hproj] at h
    simp only [generate_pbs_flags] at h
    by_cases hj : cfg.join.getD "n" ∈ (["oe", "eo", "n"] : List String)
    · rw [if_neg (not_not_intro hj)] at h
      cases hst : storage_tokens cfg.storage ["/scratch", "/g/data"] [] with
      | error e => rw [hst] at h; cases h
      | ok ms =>
        obtain ⟨mounts, storages⟩ := ms
        rw [hst] at h
        simp only [Except.ok.injEq, Prod.mk.injEq] at h
        obtain ⟨hfl, -, -⟩ := h
        subst hfl
        simp
    · rw [if_pos hj] at h
      cases h

/-- A job configuration with the invalid stream-join mode `"xx"`. -/
def cfg_join_example : PBSConfig :=
  { queue := none, project := some "ab12", walltime := none, ncpus := none,
    mem := none, jobfs := none, jobname := none, priority := none,
    join := some "xx", storage := [], qsub_flags := none }

/-- Witness for C6: with join mode `"xx"` the builder aborts through
    `sys.exit(-1)` and no command string is returned. -/
theorem generate_command_join_validation_w :
    (cfg_join_example.join.getD "n" ∉ (["oe", "eo", "n"] : List String))
    ∧ generate_command "/payu/run.sh" cfg_join_example [] [("PROJECT", "ab12")]
        (fun _ => some []) false "/usr/bin/python3" "/usr/bin" "expt" (fun _ => true)
        = Except.error (PExit.exitCode (-1)) :=
  ⟨by decide,
    (generate_command_join_validation "/payu/run.sh" cfg_join_example []
        [("PROJECT", "ab12")]
        [("PROJECT", "ab12"), ("PBS_CONF_FILE", "/etc/pbs.conf")]
        (fun _ => some []) false "/usr/bin/python3" "/usr/bin" "expt"
        (fun _ => true) "ab12" (by decide) (by decide)).1 (by decide)⟩

end Payu
